import Mathlib

/-!
Verification of the Frontend Arena registration backend (`src/server.js`).

The embedding models the pure request/state logic of the Express route
handlers: the `POST /api/register` validation-and-create chain, the
`GET /api/registrations/:id` lookup, and the
`PATCH /api/registrations/:id/status` update, over the store state
(a list of registrations plus the process-lifetime `registrationCounter`).
The in-memory fallback store of `server.js` (array push / find / findIndex
with spread-update) is the concrete store semantics modelled here; the
MongoDB path performs the same logical operations (insert, findOne by `id`,
findOneAndUpdate setting `status` and `updatedAt`).

Modelling conventions:
- JS string truthiness: a form field is falsy exactly when it is the empty
  string; an absent participant field (undefined after JSON.parse) is
  modelled as the empty string, since the handler only tests truthiness.
- `parseInt` is modelled base-10 (optional sign, longest digit run after
  trimming); `none` stands for `NaN`.  The JS comparisons `NaN < 1` and
  `NaN > 3` are both false, and `x !== NaN` is always true: this is encoded
  explicitly in `sizeOutOfRange` and `lengthMismatch`.
- `JSON.parse(participants)` is not re-implemented; a submission carries the
  outcome of that parse (`parseError` when JSON.parse throws, `notArray`
  when it yields a non-array, or the parsed list).  The raw string is kept
  as well because the handler first tests its truthiness.
- Timestamps (`new Date()`) are an explicit `now : Nat` parameter.
- `String(n)` (decimal rendering of the counter) is embedded as
  `natToDigits`, and `padStart(4, '0')` as `padStart4List`.
-/

namespace FrontendArena

/-- JS string truthiness as used by the handler: `!s` is true exactly for
the empty string (absent fields are modelled as empty). -/
def jsFalsy (s : String) : Bool := s == ""

/-- Numeric value of a decimal digit character. -/
def digitVal (c : Char) : Nat := c.toNat - 48

/-- Decimal digit character for `d < 10` (codepoint 48 + d). -/
def digitChar (d : Nat) : Char := Char.ofNat (48 + d)

/-- Value of a string of decimal digits, most significant first. -/
def digitsToNat (ds : List Char) : Nat :=
  ds.foldl (fun a c => 10 * a + digitVal c) 0

/-- Longest leading run of decimal digits, as consumed by `parseInt`. -/
def leadingDigits (cs : List Char) : List Char :=
  cs.takeWhile (fun c => c.isDigit)

/-- Embedding of JS `parseInt(s)` (base 10): skip leading whitespace,
optional sign, longest digit run; `none` models `NaN` (no digits to
consume). -/
def parseIntJS (s : String) : Option Int :=
  match s.toList.dropWhile Char.isWhitespace with
  | '-' :: rest =>
    let d := leadingDigits rest
    if d.isEmpty then none else some (-(digitsToNat d : Int))
  | '+' :: rest =>
    let d := leadingDigits rest
    if d.isEmpty then none else some (digitsToNat d : Int)
  | cs =>
    let d := leadingDigits cs
    if d.isEmpty then none else some (digitsToNat d : Int)

/-- Embedding of `size < 1 || size > 3` from server.js line 137.  When
`size` is `NaN` (modelled `none`) both JS comparisons are false, so the
guard does NOT fire. -/
def sizeOutOfRange : Option Int → Bool
  | none => false
  | some n => n < 1 || n > 3

/-- Embedding of `participantsArray.length !== size` from server.js
line 148.  `x !== NaN` is always true in JS. -/
def lengthMismatch (len : Nat) : Option Int → Bool
  | none => true
  | some n => (len : Int) != n

/-- One team member as parsed from the participants JSON (server.js
lines 23-33); absent fields are the empty string. -/
structure Participant where
  name : String
  email : String
  phone : String
  college : String
  departmentYear : String
  linkedin : String
  portfolio : String
deriving DecidableEq, Repr

instance : Inhabited Participant := ⟨⟨"", "", "", "", "", "", ""⟩⟩

/-- Embedding of the first-participant completeness test of server.js
lines 152-156: any falsy required field rejects. -/
def firstIncomplete (p : Participant) : Bool :=
  jsFalsy p.name || jsFalsy p.email || jsFalsy p.phone ||
  jsFalsy p.college || jsFalsy p.departmentYear

/-- Outcome of `JSON.parse(participants)` followed by the
`Array.isArray` test (server.js lines 141-150). -/
inductive ParseOutcome where
  /-- JSON.parse threw (server.js line 144). -/
  | parseError : ParseOutcome
  /-- JSON.parse succeeded but the value is not an array. -/
  | notArray : ParseOutcome
  /-- JSON.parse produced an array of participant objects. -/
  | array (ps : List Participant) : ParseOutcome
deriving DecidableEq, Repr

/-- One multipart submission to `POST /api/register`: the four form
fields, the outcome of parsing the participants JSON string, and the
multer-stored file's name (`none` when no file was attached). -/
structure Submission where
  teamName : String
  teamSizeRaw : String
  participantsRaw : String
  portfolioUrl : String
  parsedParticipants : ParseOutcome
  file : Option String
deriving DecidableEq, Repr

/-- A stored registration record (server.js lines 162-172); `updatedAt`
is absent until the first status update sets it. -/
structure Registration where
  id : String
  teamName : String
  teamSize : Int
  participants : List Participant
  portfolioUrl : String
  paymentScreenshot : String
  entryFee : Int
  registrationDate : Nat
  status : String
  emailSent : Bool
  updatedAt : Option Nat
deriving DecidableEq, Repr

/-- Process state: the `registrationCounter` (server.js line 86) and the
store contents (the in-memory `inMemoryData` array; the Mongo collection
behaves the same for the operations modelled). -/
structure ServerState where
  registrationCounter : Nat
  store : List Registration
deriving DecidableEq, Repr

/-- Initial process state: counter 1, empty store. -/
def st0 : ServerState := ⟨1, []⟩

/-- Validation failures of the register handler, each one HTTP 400 with
the quoted message. -/
inductive RegError where
  /-- "Missing required fields" (line 133). -/
  | missingFields : RegError
  /-- "Team size must be between 1 and 3" (line 138). -/
  | invalidRange : RegError
  /-- "Invalid participants data format" (line 145). -/
  | parseFailure : RegError
  /-- "Invalid participants data" (line 149): not an array, or count mismatch. -/
  | invalidParticipants : RegError
  /-- "First participant information is incomplete" (line 155). -/
  | incompleteFirst : RegError
  /-- "Payment screenshot is required" (line 159). -/
  | missingFile : RegError
deriving DecidableEq, Repr

/-- Result of the register handler: 201 with the created record, a 400
validation error, or 500 (the catch block; unreachable in the modelled
pure logic, kept for faithfulness to the thrown-TypeError path). -/
inductive RegResult where
  | ok (r : Registration) : RegResult
  | badRequest (e : RegError) : RegResult
  | internalError : RegResult
deriving DecidableEq, Repr

/-- Fuel-indexed decimal rendering; the fuel only serves structural
recursion and is irrelevant once it is at least `n`. -/
def natToDigitsAux : Nat → Nat → List Char
  | 0, n => [digitChar n]
  | fuel + 1, n =>
    if n < 10 then [digitChar n]
    else natToDigitsAux fuel (n / 10) ++ [digitChar (n % 10)]

/-- Decimal rendering of a natural number, the embedding of JS
`String(n)` for the counter. -/
def natToDigits (n : Nat) : List Char := natToDigitsAux n n

/-- Embedding of `.padStart(4, '0')` at the character-list level. -/
def padStart4List (l : List Char) : List Char :=
  if l.length ≥ 4 then l else List.replicate (4 - l.length) '0' ++ l

/-- Embedding of the id template of server.js line 163:
`REG-${String(n).padStart(4, '0')}`. -/
def regId (n : Nat) : String :=
  String.mk (['R', 'E', 'G', '-'] ++ padStart4List (natToDigits n))

/-- Embedding of the `POST /api/register` handler body (server.js
lines 128-189): the validation chain in source order, then record
construction, save (append to the store) and counter increment. -/
def register (st : ServerState) (sub : Submission) (now : Nat) :
    RegResult × ServerState :=
  if jsFalsy sub.teamName || jsFalsy sub.teamSizeRaw ||
     jsFalsy sub.participantsRaw || jsFalsy sub.portfolioUrl then
    (.badRequest .missingFields, st)
  else
    let size := parseIntJS sub.teamSizeRaw
    if sizeOutOfRange size then
      (.badRequest .invalidRange, st)
    else
      match sub.parsedParticipants with
      | .parseError => (.badRequest .parseFailure, st)
      | .notArray => (.badRequest .invalidParticipants, st)
      | .array ps =>
        if lengthMismatch ps.length size then
          (.badRequest .invalidParticipants, st)
        else
          match size, ps with
          | some n, p :: rest =>
            if firstIncomplete p then
              (.badRequest .incompleteFirst, st)
            else
              match sub.file with
              | none => (.badRequest .missingFile, st)
              | some fname =>
                let r : Registration :=
                  { id := regId st.registrationCounter
                    teamName := sub.teamName
                    teamSize := n
                    participants := (p :: rest).take n.toNat
                    portfolioUrl := sub.portfolioUrl
                    paymentScreenshot := fname
                    entryFee := n * 50
                    registrationDate := now
                    status := "pending"
                    emailSent := false
                    updatedAt := none }
                (.ok r, ⟨st.registrationCounter + 1, st.store ++ [r]⟩)
          | _, _ =>
            (.internalError, st)

/-- Embedding of `GET /api/registrations/:id` (server.js lines 117-125):
findOne by the `id` field; `none` is the 404 response. -/
def getById (st : ServerState) (id : String) : Option Registration :=
  st.store.find? (fun r => r.id == id)

/-- The `$set` of the status PATCH (server.js line 202): only `status`
and `updatedAt` change. -/
def applyStatus (r : Registration) (s : String) (now : Nat) : Registration :=
  { r with status := s, updatedAt := some now }

/-- findOneAndUpdate over the store list: update the first record whose
`id` matches, return the updated record (`new: true`). -/
def updateFirst (l : List Registration) (id s : String) (now : Nat) :
    Option Registration × List Registration :=
  match l with
  | [] => (none, [])
  | r :: rest =>
    if r.id == id then
      (some (applyStatus r s now), applyStatus r s now :: rest)
    else
      let res := updateFirst rest id s now
      (res.1, r :: res.2)

/-- Embedding of `PATCH /api/registrations/:id/status` (server.js
lines 198-211); `none` is the 404 response and the counter is untouched. -/
def updateStatus (st : ServerState) (id s : String) (now : Nat) :
    Option Registration × ServerState :=
  let res := updateFirst st.store id s now
  (res.1, ⟨st.registrationCounter, res.2⟩)

/-- Store invariant for the entry fee: every stored registration's
`entryFee` is `teamSize * 50`. -/
def FeeInv (st : ServerState) : Prop :=
  ∀ r ∈ st.store, r.entryFee = r.teamSize * 50

/-- Store invariant for ids: the stored ids are pairwise distinct, and
each one was minted from a counter value strictly below the current
`registrationCounter`. -/
def IdsInv (st : ServerState) : Prop :=
  (st.store.map Registration.id).Nodup ∧
  ∀ r ∈ st.store, ∃ k, k < st.registrationCounter ∧ r.id = regId k

/-! Concrete sample data used by the witnesses and counterexamples. -/

/-- A complete participant. -/
def pA : Participant := ⟨"A", "a@x.com", "1", "C", "CS-3", "", ""⟩

/-- A second complete participant. -/
def pB : Participant := ⟨"B", "b@x.com", "2", "C", "CS-2", "", ""⟩

/-- A participant missing the required `name` field. -/
def pBad : Participant := ⟨"", "a@x.com", "1", "C", "CS-3", "", ""⟩

/-- A fully valid submission: team of 2, both participants parsed, file
attached. -/
def subGood : Submission :=
  ⟨"Alpha", "2", "[json]", "http://p", .array [pA, pB], some "shot.png"⟩

/-- A submission whose participants list has 1 entry but teamSize 2. -/
def subMismatch : Submission :=
  ⟨"Alpha", "2", "[json]", "http://p", .array [pA], some "shot.png"⟩

/-- A submission with a non-numeric teamSize field. -/
def subNaN : Submission :=
  ⟨"Alpha", "abc", "[json]", "http://p", .array [pA], some "shot.png"⟩

/-- A submission with teamSize 4 (out of range). -/
def subBig : Submission :=
  ⟨"Alpha", "4", "[json]", "http://p", .array [pA, pA, pA, pA], some "shot.png"⟩

/-- A single-member submission whose first participant is incomplete. -/
def subIncomplete : Submission :=
  ⟨"Alpha", "1", "[json]", "http://p", .array [pBad], some "shot.png"⟩

/-- A valid submission except that no payment file was attached. -/
def subNoFile : Submission :=
  ⟨"Alpha", "2", "[json]", "http://p", .array [pA, pB], none⟩

/-- A team of two whose second participant is missing every required
field; only index 0 is validated. -/
def subLenient : Submission :=
  ⟨"Alpha", "2", "[json]", "http://p", .array [pA, pBad], some "shot.png"⟩

/-- The record that accepting `subGood` in the initial state creates. -/
def rGood : Registration :=
  ⟨"REG-0001", "Alpha", 2, [pA, pB], "http://p", "shot.png", 100, 0, "pending", false, none⟩

/-- The state after accepting `subGood` in the initial state. -/
def stGood : ServerState := ⟨2, [rGood]⟩

/-- The record `rGood` after a status update to "approved" at time 5. -/
def rApproved : Registration :=
  ⟨"REG-0001", "Alpha", 2, [pA, pB], "http://p", "shot.png", 100, 0, "approved", false, some 5⟩

/-! Helper lemmas: the decimal rendering round-trips through
`digitsToNat`, hence `regId` is injective. -/

theorem digitVal_digitChar (d : Nat) (h : d < 10) :
    digitVal (digitChar d) = d := by
  interval_cases d <;> decide

theorem digitsToNat_append (l : List Char) (c : Char) :
    digitsToNat (l ++ [c]) = 10 * digitsToNat l + digitVal c := by
  simp [digitsToNat, List.foldl_append]

theorem digitsToNat_natToDigitsAux (fuel n : Nat) (h : n ≤ fuel) :
    digitsToNat (natToDigitsAux fuel n) = n := by
  induction fuel generalizing n with
  | zero =>
    have : n = 0 := Nat.le_zero.mp h
    subst this
    simp [natToDigitsAux, digitsToNat, digitVal_digitChar]
  | succ fuel ih =>
    rw [natToDigitsAux]
    by_cases hn : n < 10
    · simp [hn, digitsToNat, digitVal_digitChar n hn]
    · have hdiv : n / 10 ≤ fuel := by
        have : n / 10 < n := Nat.div_lt_self (by omega) (by omega)
        omega
      simp only [hn, if_false, digitsToNat_append, ih _ hdiv,
        digitVal_digitChar _ (Nat.mod_lt n (by omega))]
      omega

theorem digitsToNat_natToDigits (n : Nat) :
    digitsToNat (natToDigits n) = n :=
  digitsToNat_natToDigitsAux n n le_rfl

theorem digitsToNat_replicate_zero (k : Nat) (l : List Char) :
    digitsToNat (List.replicate k '0' ++ l) = digitsToNat l := by
  induction k with
  | zero => simp
  | succ k ih =>
    rw [List.replicate_succ, List.cons_append]
    simpa [digitsToNat] using ih

theorem digitsToNat_padStart4List (l : List Char) :
    digitsToNat (padStart4List l) = digitsToNat l := by
  rw [padStart4List]
  split
  · rfl
  · exact digitsToNat_replicate_zero _ _

theorem regId_injective (m n : Nat) (h : regId m = regId n) : m = n := by
  have hl : ['R', 'E', 'G', '-'] ++ padStart4List (natToDigits m) =
      ['R', 'E', 'G', '-'] ++ padStart4List (natToDigits n) :=
    congrArg String.data h
  have hp : padStart4List (natToDigits m) = padStart4List (natToDigits n) := by
    simpa using congrArg (List.drop 4) hl
  have := congrArg digitsToNat hp
  rwa [digitsToNat_padStart4List, digitsToNat_padStart4List,
    digitsToNat_natToDigits, digitsToNat_natToDigits] at this

/-! Helper lemmas: case analysis of the register handler. -/

theorem register_state_cases (st : ServerState) (sub : Submission) (now : Nat)
    (res : RegResult) (st2 : ServerState)
    (hreg : register st sub now = (res, st2)) :
    st2 = st ∨
    ∃ r, res = .ok r ∧ st2 = ⟨st.registrationCounter + 1, st.store ++ [r]⟩ := by
  rw [register] at hreg
  simp only [] at hreg
  repeat' split at hreg
  all_goals (cases hreg; simp)

theorem register_ok_shape (st : ServerState) (sub : Submission) (now : Nat)
    (r : Registration) (st2 : ServerState)
    (hreg : register st sub now = (.ok r, st2)) :
    ∃ n ps fname,
      parseIntJS sub.teamSizeRaw = some n ∧
      sub.parsedParticipants = .array ps ∧
      (ps.length : Int) = n ∧ 1 ≤ n ∧ n ≤ 3 ∧
      sub.file = some fname ∧
      firstIncomplete (ps.headI) = false ∧
      r = { id := regId st.registrationCounter
            teamName := sub.teamName
            teamSize := n
            participants := ps
            portfolioUrl := sub.portfolioUrl
            paymentScreenshot := fname
            entryFee := n * 50
            registrationDate := now
            status := "pending"
            emailSent := false
            updatedAt := none } ∧
      st2 = ⟨st.registrationCounter + 1, st.store ++ [r]⟩ := by
  rw [register] at hreg
  simp only [] at hreg
  repeat' split at hreg
  all_goals cases hreg
  rename_i hfields hrange xpo xsz aps n p rest hparse harr hlen hfirst bfile fname hfile
  have hn : 1 ≤ n ∧ n ≤ 3 := by
    rw [hparse] at hrange
    simp only [sizeOutOfRange, Bool.or_eq_true, decide_eq_true_eq, not_or] at hrange
    omega
  have hlen' : (((p :: rest).length : Nat) : Int) = n := by
    rw [hparse] at hlen
    simpa [lengthMismatch] using hlen
  have htake : List.take n.toNat (p :: rest) = p :: rest := by
    apply List.take_of_length_le
    omega
  refine ⟨n, p :: rest, fname, hparse, harr, hlen', hn.1, hn.2, hfile, ?_, ?_, ?_⟩
  · simpa using hfirst
  · rw [htake]
  · rw [htake]

/-! Helper lemmas: the status-update list operation. -/

theorem updateFirst_not_found (l : List Registration) (id s : String) (now : Nat)
    (h : ∀ r ∈ l, r.id ≠ id) :
    updateFirst l id s now = (none, l) := by
  induction l with
  | nil => rfl
  | cons r rest ih =>
    have hr : (r.id == id) = false := by simpa using h r (by simp)
    rw [updateFirst, hr]
    simp [ih fun q hq => h q (by simp [hq])]

theorem updateFirst_map_id (l : List Registration) (id s : String) (now : Nat) :
    (updateFirst l id s now).2.map Registration.id = l.map Registration.id := by
  induction l with
  | nil => rfl
  | cons r rest ih =>
    rw [updateFirst]
    by_cases hid : (r.id == id) = true
    · simp [hid, applyStatus]
    · rw [Bool.not_eq_true] at hid
      simp [hid, ih]

theorem updateFirst_mem (l : List Registration) (id s : String) (now : Nat)
    (r' : Registration) (h : r' ∈ (updateFirst l id s now).2) :
    r' ∈ l ∨ ∃ r ∈ l, r' = applyStatus r s now := by
  induction l with
  | nil => simp [updateFirst] at h
  | cons r rest ih =>
    rw [updateFirst] at h
    by_cases hid : (r.id == id) = true
    · rw [if_pos hid] at h
      rcases List.mem_cons.mp h with h1 | h1
      · exact Or.inr ⟨r, by simp, h1⟩
      · exact Or.inl (List.mem_cons_of_mem _ h1)
    · rw [if_neg hid] at h
      rcases List.mem_cons.mp h with h1 | h1
      · exact Or.inl (by simp [h1])
      · rcases ih h1 with h2 | ⟨q, hq, hq2⟩
        · exact Or.inl (List.mem_cons_of_mem _ h2)
        · exact Or.inr ⟨q, List.mem_cons_of_mem _ hq, hq2⟩

theorem updateFirst_found (l : List Registration) (id s : String) (now : Nat)
    (r1 : Registration) (l2 : List Registration)
    (h : updateFirst l id s now = (some r1, l2)) :
    r1.status = s ∧ r1.updatedAt = some now ∧
    updateFirst l2 id s now = (some r1, l2) := by
  induction l generalizing l2 with
  | nil => simp [updateFirst] at h
  | cons r rest ih =>
    rw [updateFirst] at h
    by_cases hid : (r.id == id) = true
    · rw [if_pos hid] at h
      cases h
      refine ⟨rfl, rfl, ?_⟩
      rw [updateFirst, if_pos (by simpa [applyStatus] using hid)]
      simp [applyStatus]
    · rw [if_neg hid] at h
      have h1 : (updateFirst rest id s now).1 = some r1 := congrArg Prod.fst h
      have h2 : r :: (updateFirst rest id s now).2 = l2 := congrArg Prod.snd h
      have hrec : updateFirst rest id s now = (some r1, (updateFirst rest id s now).2) := by
        rw [← h1]
      obtain ⟨hs, hu, hrep⟩ := ih _ hrec
      refine ⟨hs, hu, ?_⟩
      rw [← h2, updateFirst, if_neg hid, hrep]

/-! Helper lemma: a fresh record appended behind records with other ids is
what lookup finds. -/

theorem find_append_fresh (l : List Registration) (x : Registration)
    (h : ∀ r ∈ l, r.id ≠ x.id) :
    (l ++ [x]).find? (fun r => r.id == x.id) = some x := by
  induction l with
  | nil => simp [List.find?]
  | cons r rest ih =>
    have hr : (r.id == x.id) = false := by simpa using h r (by simp)
    rw [List.cons_append, List.find?, hr]
    exact ih fun q hq => h q (by simp [hq])

/-! The claims. -/

/-- C1: a submission that reaches the participant-count check (fields
present, teamSize parsed in range, participants parsed as an array) with
a participant count different from teamSize is rejected with the
count-mismatch error ("Invalid participants data", 400); and every
accepted registration stores the entire parsed participants list, whose
length equals teamSize exactly — nothing is truncated and kept. -/
theorem register_count_must_match (st : ServerState) (sub : Submission) (now : Nat) :
    (∀ n ps, jsFalsy sub.teamName = false → jsFalsy sub.teamSizeRaw = false →
      jsFalsy sub.participantsRaw = false → jsFalsy sub.portfolioUrl = false →
      parseIntJS sub.teamSizeRaw = some n → sizeOutOfRange (some n) = false →
      sub.parsedParticipants = .array ps → (ps.length : Int) ≠ n →
      register st sub now = (.badRequest .invalidParticipants, st)) ∧
    (∀ r st2, register st sub now = (.ok r, st2) →
      ∃ ps, sub.parsedParticipants = .array ps ∧ r.participants = ps ∧
        (r.participants.length : Int) = r.teamSize) := by
  constructor
  · intro n ps h1 h2 h3 h4 hparse hrange harr hne
    rw [register]
    simp [h1, h2, h3, h4, hparse, hrange, harr, lengthMismatch, hne]
  · intro r st2 hreg
    obtain ⟨n, ps, fname, hp, harr, hlen, _, _, _, _, hr, _⟩ :=
      register_ok_shape st sub now r st2 hreg
    subst hr
    exact ⟨ps, harr, rfl, by simpa using hlen⟩

/-- Witness for C1: a submission with teamSize 2 but a single parsed
participant is rejected with the count-mismatch error. -/
theorem register_count_must_match_witness :
    register st0 subMismatch 0 = (.badRequest .invalidParticipants, st0) :=
  (register_count_must_match st0 subMismatch 0).1 2 [pA]
    (by decide) (by decide) (by decide) (by decide)
    (by decide) (by decide) (by decide) (by decide)

/-- C2 counterexample: a non-numeric teamSize ("abc", which parses to
NaN) is NOT rejected with the invalid-range error — JS's `NaN < 1` and
`NaN > 3` are both false — but falls through to the count-mismatch
rejection ("Invalid participants data"). -/
theorem register_nan_team_size_not_range_error :
    parseIntJS "abc" = none ∧
    register st0 subNaN 0 = (.badRequest .invalidParticipants, st0) ∧
    (RegError.invalidParticipants ≠ RegError.invalidRange) := by
  refine ⟨by decide, by decide, by decide⟩

/-- C2 (amended): with the four required fields present, a teamSize
parsing to an integer outside [1,3] is rejected with the invalid-range
error and no registration is created; a non-numeric teamSize (NaN)
escapes the range check but is still rejected by a later check (parse
failure or count mismatch), so no registration is created either. -/
theorem register_team_size_range (st : ServerState) (sub : Submission) (now : Nat)
    (h1 : jsFalsy sub.teamName = false) (h2 : jsFalsy sub.teamSizeRaw = false)
    (h3 : jsFalsy sub.participantsRaw = false) (h4 : jsFalsy sub.portfolioUrl = false) :
    (∀ n : Int, parseIntJS sub.teamSizeRaw = some n → (n < 1 ∨ 3 < n) →
      register st sub now = (.badRequest .invalidRange, st)) ∧
    (parseIntJS sub.teamSizeRaw = none →
      (register st sub now).2 = st ∧ ∀ r, (register st sub now).1 ≠ .ok r) := by
  constructor
  · intro n hparse hout
    rw [register]
    have : sizeOutOfRange (some n) = true := by
      simp only [sizeOutOfRange, Bool.or_eq_true, decide_eq_true_eq]
      omega
    simp [h1, h2, h3, h4, hparse, this]
  · intro hnan
    rw [register]
    simp only [h1, h2, h3, h4, hnan]
    cases hpo : sub.parsedParticipants <;>
      simp [sizeOutOfRange, lengthMismatch]

/-- Witness for C2's amended theorem: teamSize 4 is rejected with the
invalid-range error, and the non-numeric teamSize of `subNaN` leaves the
state unchanged and creates nothing. -/
theorem register_team_size_range_witness :
    register st0 subBig 0 = (.badRequest .invalidRange, st0) ∧
    ((register st0 subNaN 0).2 = st0 ∧ ∀ r, (register st0 subNaN 0).1 ≠ .ok r) :=
  ⟨(register_team_size_range st0 subBig 0 (by decide) (by decide) (by decide)
      (by decide)).1 4 (by decide) (by omega),
   (register_team_size_range st0 subNaN 0 (by decide) (by decide) (by decide)
      (by decide)).2 (by decide)⟩

/-- C3: every accepted registration's entryFee is teamSize * 50, and the
store-wide invariant is preserved by both operations (registration and
status update — only status and updatedAt are mutable). -/
theorem entry_fee_invariant (st : ServerState) (h : FeeInv st) :
    (∀ sub now r st2, register st sub now = (.ok r, st2) →
      r.entryFee = r.teamSize * 50) ∧
    (∀ sub now, FeeInv (register st sub now).2) ∧
    (∀ id s now, FeeInv (updateStatus st id s now).2) := by
  have hok : ∀ sub now r st2, register st sub now = (.ok r, st2) →
      r.entryFee = r.teamSize * 50 := by
    intro sub now r st2 hreg
    obtain ⟨n, ps, fname, _, _, _, _, _, _, _, hr, _⟩ :=
      register_ok_shape st sub now r st2 hreg
    subst hr
    rfl
  refine ⟨hok, ?_, ?_⟩
  · intro sub now
    rcases hreg : register st sub now with ⟨res, st2⟩
    rcases register_state_cases st sub now res st2 hreg with hst | ⟨r, hres, hst⟩
    · simpa [hst] using h
    · subst hres hst
      intro r' hr'
      rcases List.mem_append.mp hr' with hold | hnew
      · exact h r' hold
      · rw [List.mem_singleton.mp hnew]
        exact hok sub now r _ hreg
  · intro id s now r' hr'
    rcases updateFirst_mem st.store id s now r' hr' with hold | ⟨q, hq, hq2⟩
    · exact h r' hold
    · rw [hq2]
      simpa [applyStatus] using h q hq

/-- Witness for C3: the registration accepted from `subGood` satisfies
entryFee = teamSize * 50. -/
theorem entry_fee_invariant_witness : rGood.entryFee = rGood.teamSize * 50 :=
  (entry_fee_invariant st0 (by simp [FeeInv, st0])).1 subGood 0 rGood stGood (by decide)

/-- C4: ids are unique across a store and never modified afterwards:
the id invariant holds initially, is preserved by registration (the new
id `REG-NNNN` is minted from the strictly increasing counter, so it
differs from every stored id), and the status update leaves every stored
id unchanged. -/
theorem registration_id_unique (st : ServerState) (h : IdsInv st) :
    IdsInv st0 ∧
    (∀ sub now, IdsInv (register st sub now).2) ∧
    (∀ id s now,
      (updateStatus st id s now).2.store.map Registration.id =
        st.store.map Registration.id ∧
      IdsInv (updateStatus st id s now).2) := by
  refine ⟨⟨by simp [st0], by simp [st0]⟩, ?_, ?_⟩
  · intro sub now
    rcases hreg : register st sub now with ⟨res, st2⟩
    rcases register_state_cases st sub now res st2 hreg with hst | ⟨r, hres, hst⟩
    · rwa [hst]
    · subst hres hst
      obtain ⟨n, ps, fname, _, _, _, _, _, _, _, hr, _⟩ :=
        register_ok_shape st sub now r _ hreg
      have hid : r.id = regId st.registrationCounter := by rw [hr]
      have hNodup : ((st.store ++ [r]).map Registration.id).Nodup := by
        rw [List.map_append, List.map_singleton, List.nodup_append]
        refine ⟨h.1, List.nodup_singleton _, ?_⟩
        intro x hx hmem
        obtain ⟨q, hq, hqid⟩ := List.mem_map.mp hx
        obtain ⟨k, hk, hkid⟩ := h.2 q hq
        rw [List.mem_singleton.mp hmem] at hqid
        rw [hid, hkid] at hqid
        exact absurd (regId_injective _ _ hqid) (by omega)
      have hBound : ∀ r' ∈ st.store ++ [r],
          ∃ k, k < st.registrationCounter + 1 ∧ r'.id = regId k := by
        intro r' hr'
        rcases List.mem_append.mp hr' with hold | hnew
        · obtain ⟨k, hk, hkid⟩ := h.2 r' hold
          exact ⟨k, by omega, hkid⟩
        · rw [List.mem_singleton.mp hnew]
          exact ⟨st.registrationCounter, by omega, hid⟩
      exact ⟨hNodup, hBound⟩
  · intro id s now
    have hmap := updateFirst_map_id st.store id s now
    refine ⟨hmap, ⟨by rw [show (updateStatus st id s now).2.store =
        (updateFirst st.store id s now).2 from rfl, hmap]; exact h.1, ?_⟩⟩
    intro r' hr'
    rcases updateFirst_mem st.store id s now r' hr' with hold | ⟨q, hq, hq2⟩
    · exact h.2 r' hold
    · obtain ⟨k, hk, hkid⟩ := h.2 q hq
      exact ⟨k, hk, by rw [hq2]; simpa [applyStatus] using hkid⟩

/-- Witness for C4: the id invariant holds after accepting `subGood`
from the initial state. -/
theorem registration_id_unique_witness : IdsInv (register st0 subGood 0).2 :=
  (registration_id_unique st0 (by simp [IdsInv, st0])).2.1 subGood 0

/-- C5: round-trip — fetching a just-created registration by the id the
creation returned yields the very record that was stored, carrying the
submitted teamName, portfolioUrl, the parsed teamSize and participants,
and the computed entryFee. -/
theorem register_then_getById_roundtrip (st : ServerState) (sub : Submission)
    (now : Nat) (r : Registration) (st2 : ServerState)
    (hIds : IdsInv st) (hreg : register st sub now = (.ok r, st2)) :
    getById st2 r.id = some r ∧
    r.teamName = sub.teamName ∧
    r.portfolioUrl = sub.portfolioUrl ∧
    parseIntJS sub.teamSizeRaw = some r.teamSize ∧
    sub.parsedParticipants = .array r.participants ∧
    r.entryFee = r.teamSize * 50 := by
  obtain ⟨n, ps, fname, hparse, harr, hlen, _, _, hfile, _, hr, hst2⟩ :=
    register_ok_shape st sub now r st2 hreg
  subst hst2
  refine ⟨?_, by rw [hr], by rw [hr], ?_, ?_, by rw [hr]⟩
  · rw [getById]
    apply find_append_fresh
    intro q hq
    obtain ⟨k, hk, hkid⟩ := hIds.2 q hq
    have hid : r.id = regId st.registrationCounter := by rw [hr]
    rw [hkid, hid]
    intro hcontra
    exact absurd (regId_injective _ _ hcontra) (by omega)
  · rw [hparse, hr]
  · rw [harr, hr]

/-- Witness for C5: fetching `rGood` by its id from the post-creation
state returns it. -/
theorem register_then_getById_roundtrip_witness :
    getById stGood rGood.id = some rGood :=
  (register_then_getById_roundtrip st0 subGood 0 rGood stGood
    (by simp [IdsInv, st0]) (by decide)).1

/-- C6: a status update for an id that no stored registration carries
returns the not-found result (404) and writes nothing: the state is
returned unchanged. -/
theorem updateStatus_nonexistent_no_write (st : ServerState) (id s : String)
    (now : Nat) (h : ∀ r ∈ st.store, r.id ≠ id) :
    updateStatus st id s now = (none, st) := by
  simp [updateStatus, updateFirst_not_found st.store id s now h]

/-- Witness for C6: updating an id absent from the one-record store
returns not-found and leaves the store as it was. -/
theorem updateStatus_nonexistent_no_write_witness :
    updateStatus stGood "REG-9999" "approved" 7 = (none, stGood) :=
  updateStatus_nonexistent_no_write stGood "REG-9999" "approved" 7 (by decide)

/-- C7: looking up an id that no stored registration carries yields the
not-found result (404), never a default record. -/
theorem getById_nonexistent_not_found (st : ServerState) (id : String)
    (h : ∀ r ∈ st.store, r.id ≠ id) :
    getById st id = none := by
  rw [getById, List.find?_eq_none]
  intro r hr
  simpa using h r hr

/-- Witness for C7: looking up an absent id in the one-record store
yields none. -/
theorem getById_nonexistent_not_found_witness : getById stGood "REG-9999" = none :=
  getById_nonexistent_not_found stGood "REG-9999" (by decide)

/-- C8: repeating a status update with the same status value is
idempotent — whenever the first call succeeds and returns the updated
record (status set, updatedAt refreshed), a second call with the same
status and timestamp succeeds, returns the same record, and leaves the
store in the same end state. -/
theorem updateStatus_same_status_idempotent (st : ServerState) (id s : String)
    (now : Nat) (r1 : Registration)
    (h : (updateStatus st id s now).1 = some r1) :
    r1.status = s ∧ r1.updatedAt = some now ∧
    updateStatus (updateStatus st id s now).2 id s now =
      (some r1, (updateStatus st id s now).2) := by
  have h1 : (updateFirst st.store id s now).1 = some r1 := h
  have hrec : updateFirst st.store id s now =
      (some r1, (updateFirst st.store id s now).2) := by
    rw [← h1]
  obtain ⟨hs, hu, hrep⟩ := updateFirst_found st.store id s now r1 _ hrec
  exact ⟨hs, hu, by simp [updateStatus, hrep]⟩

/-- Witness for C8: approving `REG-0001` twice at time 5 returns the
approved record both times, with the same end state. -/
theorem updateStatus_same_status_idempotent_witness :
    rApproved.status = "approved" ∧ rApproved.updatedAt = some 5 ∧
    updateStatus (updateStatus stGood "REG-0001" "approved" 5).2
        "REG-0001" "approved" 5 =
      (some rApproved, (updateStatus stGood "REG-0001" "approved" 5).2) :=
  updateStatus_same_status_idempotent stGood "REG-0001" "approved" 5 rApproved
    (by decide)

/-- C9: for a submission that passes every earlier validation (fields
present, teamSize in range, participant count matching), the
incomplete-participant rejection fires exactly when a required field of
the participant at index 0 is falsy; participants at later indices are
never field-validated — with a complete first participant and a file,
the submission is accepted with the full list stored, whatever the later
entries contain. -/
theorem register_first_participant_gate (st : ServerState) (sub : Submission)
    (now : Nat) (n : Int) (p : Participant) (rest : List Participant)
    (h1 : jsFalsy sub.teamName = false) (h2 : jsFalsy sub.teamSizeRaw = false)
    (h3 : jsFalsy sub.participantsRaw = false) (h4 : jsFalsy sub.portfolioUrl = false)
    (hparse : parseIntJS sub.teamSizeRaw = some n)
    (hrange : sizeOutOfRange (some n) = false)
    (harr : sub.parsedParticipants = .array (p :: rest))
    (hlen : (((p :: rest).length : Nat) : Int) = n) :
    ((register st sub now).1 = .badRequest .incompleteFirst ↔
      firstIncomplete p = true) ∧
    (firstIncomplete p = false → ∀ fname, sub.file = some fname →
      ∃ r st2, register st sub now = (.ok r, st2) ∧ r.participants = p :: rest) := by
  have hlen' : (rest.length : Int) + 1 = n := by simpa using hlen
  have hmm : lengthMismatch (rest.length + 1) (some n) = false := by
    simp [lengthMismatch, hlen']
  have htake : List.take n.toNat (p :: rest) = p :: rest := by
    apply List.take_of_length_le
    simp only [List.length_cons]
    omega
  constructor
  · cases hfi : firstIncomplete p
    · rw [register]
      simp only [h1, h2, h3, h4, hparse, harr, hrange, List.length_cons, hmm]
      cases hfile : sub.file <;> simp [hfi]
    · rw [register]
      simp [h1, h2, h3, h4, hparse, harr, hrange, List.length_cons, hmm, hfi]
  · intro hfi fname hfile
    refine ⟨⟨regId st.registrationCounter, sub.teamName, n, p :: rest,
        sub.portfolioUrl, fname, n * 50, now, "pending", false, none⟩,
      ⟨st.registrationCounter + 1, st.store ++
        [⟨regId st.registrationCounter, sub.teamName, n, p :: rest,
          sub.portfolioUrl, fname, n * 50, now, "pending", false, none⟩]⟩, ?_, rfl⟩
    rw [register]
    simp [h1, h2, h3, h4, hparse, harr, hrange, List.length_cons, hmm, hfi,
      hfile, htake]

/-- Witness for C9: a team of two whose second participant is entirely
missing its required fields is accepted, and both entries are stored. -/
theorem register_first_participant_gate_witness :
    ∃ r st2, register st0 subLenient 0 = (.ok r, st2) ∧
      r.participants = [pA, pBad] :=
  (register_first_participant_gate st0 subLenient 0 2 pA [pBad]
    (by decide) (by decide) (by decide) (by decide) (by decide) (by decide)
    (by decide) (by decide)).2 (by decide) "shot.png" (by decide)

/-- C10: the register operation validates before it writes — whenever it
answers with a 400 validation error, the state (store and counter) is
exactly the input state. -/
theorem register_reject_leaves_state_unchanged (st : ServerState)
    (sub : Submission) (now : Nat) (e : RegError)
    (h : (register st sub now).1 = .badRequest e) :
    (register st sub now).2 = st := by
  rcases hreg : register st sub now with ⟨res, st2⟩
  rw [hreg] at h
  rcases register_state_cases st sub now res st2 hreg with hst | ⟨r, hres, _⟩
  · exact hst
  · rw [hres] at h
    cases h

/-- Witness for C10: the rejected no-file submission leaves the initial
state unchanged. -/
theorem register_reject_leaves_state_unchanged_witness :
    (register st0 subNoFile 0).2 = st0 :=
  register_reject_leaves_state_unchanged st0 subNoFile 0 .missingFile (by decide)


end FrontendArena
